import Mathlib

/-!
Verification of the field-mapping and overflow-allocation engine of the
freshdesk-to-jira migrator (src/core/field_mapper.py, src/core/ticket_converter.py,
config/mapper_functions.py), as a shallow embedding in Lean.

Python values that flow through the mapper are modelled by `PyVal`
(scalar subset: the admission and summary logic only inspects None-ness,
string-ness and truthiness, so the scalar fragment is faithful for those
code paths).  Python dicts are modelled as association lists in insertion
order, with `dictInsert` reproducing dict assignment semantics
(update-in-place keeps the position, new keys append).  Python text is
modelled as `List Char` (Python `len`/slicing count code points).
-/

/-- Scalar Python value (None, bool, int, str). -/
inductive PyVal where
  | none : PyVal
  | bool : Bool → PyVal
  | int : Int → PyVal
  | str : String → PyVal
deriving DecidableEq, Repr

/-- Python truthiness for the scalar values (`not x`). -/
def pyFalsy : PyVal → Bool
  | .none => true
  | .bool b => !b
  | .int n => n == 0
  | .str s => s == ""

/-- Python `str(x)` rendering for the scalar values, as used in f-strings. -/
def pyStr : PyVal → String
  | .none => "None"
  | .bool true => "True"
  | .bool false => "False"
  | .int n => toString n
  | .str s => s

/-- Whether the value is a Python `str` (isinstance check). -/
def PyVal.isStr : PyVal → Bool
  | .str _ => true
  | _ => false

/-- Python `d.get(k)` over a dict modelled as an insertion-ordered association list. -/
def dictGet {α : Type} (d : List (String × α)) (k : String) : Option α :=
  match d with
  | [] => Option.none
  | (k', v) :: r => if k' = k then some v else dictGet r k

/-- Python `d[k] = v`: update in place if the key exists (keeping its
position), otherwise append at the end (dict insertion order).  Dicts never
hold duplicate keys, so replacing the first occurrence is exact. -/
def dictInsert {α : Type} : List (String × α) → String → α → List (String × α)
  | [], k, v => [(k, v)]
  | (k', v') :: r, k, v =>
    if k' = k then (k, v) :: r else (k', v') :: dictInsert r k v

/-- Sequence of dict assignments starting from dict `d`. -/
def buildDictFrom {α : Type} (d : List (String × α)) (ws : List (String × α)) :
    List (String × α) :=
  ws.foldl (fun acc kv => dictInsert acc kv.1 kv.2) d

/-- Python whitespace characters stripped by `str.strip()` (ASCII fragment;
the claims only exercise ASCII whitespace). -/
def isPyWhitespace (c : Char) : Bool :=
  c == ' ' || c == '\t' || c == '\n' || c == '\r' || c == '\x0b' || c == '\x0c'

/-- Python `s.strip()`. -/
def pyStrip (s : String) : String :=
  ((s.toList.dropWhile isPyWhitespace).reverse.dropWhile isPyWhitespace).reverse.asString

/-- Normalize a Python slice index to an absolute position in `[0, n]`
(negative indices count from the end; both directions clamp). -/
def pySliceIdx (n : Nat) (i : Int) : Nat :=
  if i < 0 then n - (-i).toNat else min i.toNat n

/-- Python `s[:i]`. -/
def pyTake (l : List Char) (i : Int) : List Char :=
  l.take (pySliceIdx l.length i)

/-- Python `s[i:]`. -/
def pyDrop (l : List Char) (i : Int) : List Char :=
  l.drop (pySliceIdx l.length i)

/-- Whether `pat` occurs in `data` starting at position `i`. -/
def matchAt (data pat : List Char) (i : Nat) : Bool :=
  (data.drop i).take pat.length == pat

/-- Python `data.rfind(pat, 0, endI)`: highest start position of an
occurrence of `pat` lying entirely before the (normalized) end bound,
or -1 when there is none. -/
def pyRfind (data pat : List Char) (endI : Int) : Int :=
  let e := pySliceIdx data.length endI
  let cands := (List.range (e + 1)).filter
    (fun i => decide (i + pat.length ≤ e) && matchAt data pat i)
  match cands.getLast? with
  | some i => (i : Int)
  | Option.none => -1

/-!
Overflow splitter (FieldMapper in src/core/field_mapper.py).
The splitter chops an oversized blob into at most `1 + num_overflow_fields`
chunks; every chunk after the first is prefixed with a continuation header
whose length counts against that chunk's budget.
-/

/-- Continuation header inserted by `_split_conversation_data`
before overflow chunk `i`. -/
def convContinuationHeader (i : Nat) : List Char :=
  ("**— Conversation Details (Continued " ++ toString i ++ ") —**\n").data

/-- Continuation header inserted by `_split_attachment_data`
before overflow chunk `i`. -/
def attContinuationHeader (i : Nat) : List Char :=
  ("**— Attachment Details (Continued " ++ toString i ++ ") —**\n").data

/-- `FieldMapper._find_conversation_break_point`: rightmost record separator
before the bound, else a late-enough newline, else a hard cut.  The Python
float comparison `break_point > max_length * 0.8` is modelled exactly on
integers as `4 * max_length < 5 * break_point`. -/
def findConversationBreakPoint (data : List Char) (maxLen : Int) : Int :=
  if (data.length : Int) ≤ maxLen then (data.length : Int)
  else
    let p1 := pyRfind data ("---".data) maxLen
    if 0 < p1 then p1 + ("---".data).length
    else
      let p2 := pyRfind data ("\n\n---\n\n".data) maxLen
      if 0 < p2 then p2 + ("\n\n---\n\n".data).length
      else
        let bp := pyRfind data ("\n".data) maxLen
        if 4 * maxLen < 5 * bp then bp + 1 else maxLen

/-- `FieldMapper._find_attachment_break_point`: rightmost double newline
before the bound, else a late-enough newline, else a hard cut. -/
def findAttachmentBreakPoint (data : List Char) (maxLen : Int) : Int :=
  if (data.length : Int) ≤ maxLen then (data.length : Int)
  else
    let p := pyRfind data ("\n\n".data) maxLen
    if 0 < p then p + ("\n\n".data).length
    else
      let bp := pyRfind data ("\n".data) maxLen
      if 4 * maxLen < 5 * bp then bp + 1 else maxLen

/-- Loop body of `FieldMapper._split_conversation_data`: `fuel` is the number
of remaining loop iterations (`total_fields - i`), `i` the loop counter. -/
def splitConversationAux (maxLen : Int) : Nat → Nat → List Char → List (List Char)
  | 0, _, _ => []
  | fuel + 1, i, remaining =>
    if remaining = [] then []
    else if i = 0 then
      if (remaining.length : Int) ≤ maxLen then [remaining]
      else
        let bp := findConversationBreakPoint remaining maxLen
        pyTake remaining bp ::
          splitConversationAux maxLen fuel (i + 1) (pyDrop remaining bp)
    else
      let header := convContinuationHeader i
      let avail := maxLen - (header.length : Int)
      if (remaining.length : Int) ≤ avail then [header ++ remaining]
      else
        let bp := findConversationBreakPoint remaining avail
        (header ++ pyTake remaining bp) ::
          splitConversationAux maxLen fuel (i + 1) (pyDrop remaining bp)

/-- `FieldMapper._split_conversation_data`: split a blob into at most
`1 + numOverflowFields` chunks. -/
def splitConversationData (data : List Char) (maxLen : Int)
    (numOverflowFields : Nat) : List (List Char) :=
  if (data.length : Int) ≤ maxLen then [data]
  else splitConversationAux maxLen (1 + numOverflowFields) 0 data

/-- Loop body of `FieldMapper._split_attachment_data`. -/
def splitAttachmentAux (maxLen : Int) : Nat → Nat → List Char → List (List Char)
  | 0, _, _ => []
  | fuel + 1, i, remaining =>
    if remaining = [] then []
    else if i = 0 then
      if (remaining.length : Int) ≤ maxLen then [remaining]
      else
        let bp := findAttachmentBreakPoint remaining maxLen
        pyTake remaining bp ::
          splitAttachmentAux maxLen fuel (i + 1) (pyDrop remaining bp)
    else
      let header := attContinuationHeader i
      let avail := maxLen - (header.length : Int)
      if (remaining.length : Int) ≤ avail then [header ++ remaining]
      else
        let bp := findAttachmentBreakPoint remaining avail
        (header ++ pyTake remaining bp) ::
          splitAttachmentAux maxLen fuel (i + 1) (pyDrop remaining bp)

/-- `FieldMapper._split_attachment_data`. -/
def splitAttachmentData (data : List Char) (maxLen : Int)
    (numOverflowFields : Nat) : List (List Char) :=
  if (data.length : Int) ≤ maxLen then [data]
  else splitAttachmentAux maxLen (1 + numOverflowFields) 0 data

/-- Strip the conversation continuation header from every chunk after the
first and concatenate; `i` is the index of the first chunk in the list. -/
def stripChunksFrom : Nat → List (List Char) → List Char
  | _, [] => []
  | i, c :: cs =>
    (if i = 0 then c else c.drop (convContinuationHeader i).length) ++
      stripChunksFrom (i + 1) cs

/-- Concatenation of a chunk list with the inserted conversation
continuation headers stripped from every chunk after the first. -/
def stripChunks (chunks : List (List Char)) : List Char :=
  stripChunksFrom 0 chunks

/-!
Shared overflow pool (FieldMapper `_overflow_tracker` and
`_additional_info_fields`) and the overflow handlers.
-/

/-- The mutable overflow state held by one FieldMapper instance. -/
structure MapperState where
  overflowTracker : Nat
  additionalInfoFields : List String
deriving DecidableEq, Repr

/-- `FieldMapper._get_next_additional_info_field`: return the pool field at
the cursor and advance it, or None when the pool is exhausted. -/
def getNextAdditionalInfoField (s : MapperState) : Option String × MapperState :=
  if h : s.overflowTracker < s.additionalInfoFields.length then
    (some (s.additionalInfoFields.get ⟨s.overflowTracker, h⟩),
      { s with overflowTracker := s.overflowTracker + 1 })
  else (Option.none, s)

/-- The `for chunk in remaining_chunks` loop shared by
`_handle_conversation_overflow` and `_handle_attachment_overflow`: pull the
next pool field for each chunk, stopping (Python truthiness of the field)
when the pool is exhausted. -/
def assignRemainingChunks :
    List (List Char) → MapperState → List (String × List Char) × MapperState
  | [], s => ([], s)
  | c :: cs, s =>
    match getNextAdditionalInfoField s with
    | (some f, s') =>
      if f ≠ "" then
        let r := assignRemainingChunks cs s'
        ((f, c) :: r.1, r.2)
      else ([], s')
    | (Option.none, s') => ([], s')

/-- The `for i, overflow_field in enumerate(...)` loop: dedicated overflow
fields receive chunks 1.. in order while both lists last. -/
def assignDedicated : List String → List (List Char) → List (String × List Char)
  | [], _ => []
  | _ :: _, [] => []
  | f :: fs, c :: cs => (f, c) :: assignDedicated fs cs

/-- `FieldMapper._handle_conversation_overflow`: split for the dedicated
budget, fill the main field and the dedicated overflow fields, then (if
chunks remain) consume the shared pool via the cursor.  The returned list
is the dict of field writes in insertion order. -/
def handleConversationOverflow (data : List Char) (overflowFields : List String)
    (maxLen : Int) (jiraField : String) (s : MapperState) :
    List (String × List Char) × MapperState :=
  let chunks := splitConversationData data maxLen overflowFields.length
  let totalDedicated := 1 + overflowFields.length
  let base := (jiraField, chunks.headD []) :: assignDedicated overflowFields (chunks.drop 1)
  if totalDedicated < chunks.length then
    let pr := assignRemainingChunks (chunks.drop totalDedicated) s
    (base ++ pr.1, pr.2)
  else (base, s)

/-- `FieldMapper._handle_attachment_overflow`. -/
def handleAttachmentOverflow (data : List Char) (overflowFields : List String)
    (maxLen : Int) (jiraField : String) (s : MapperState) :
    List (String × List Char) × MapperState :=
  let chunks := splitAttachmentData data maxLen overflowFields.length
  let totalDedicated := 1 + overflowFields.length
  let base := (jiraField, chunks.headD []) :: assignDedicated overflowFields (chunks.drop 1)
  if totalDedicated < chunks.length then
    let pr := assignRemainingChunks (chunks.drop totalDedicated) s
    (base ++ pr.1, pr.2)
  else (base, s)

/-!
Identity Directory (the `user_data` structure with `agents` and `contacts`
namespaces) and the two identity-resolution code paths: the inline lookup
used by the Record Formatter, and the standalone `map_user_from_id`
transform from config/mapper_functions.py.
-/

/-- A contacts-namespace record: the identity email sits at the top level. -/
structure Contact where
  email : Option String
deriving DecidableEq, Repr

/-- An agents-namespace record: the identity is nested under `contact`. -/
structure Agent where
  contact : Option Contact
deriving DecidableEq, Repr

/-- The Identity Directory (`user_data`).  `Option UserData` models the
Python parameter, `none` standing for an absent (or empty, hence falsy)
directory. -/
structure UserData where
  agents : List (String × Agent)
  contacts : List (String × Contact)
deriving DecidableEq, Repr

/-- The check `'contact' in agent and agent['contact'].get('email')`
(a present, truthy email nested under the contact sub-object). -/
def agentContactEmail (a : Agent) : Option String :=
  match a.contact with
  | some c =>
    match c.email with
    | some e => if e ≠ "" then some e else Option.none
    | Option.none => Option.none
  | Option.none => Option.none

/-- The check `user_id in contacts and contact.get('email')` (truthy
top-level email). -/
def lookupContactEmail (contacts : List (String × Contact)) (key : String) :
    Option String :=
  match dictGet contacts key with
  | some c =>
    match c.email with
    | some e => if e ≠ "" then some e else Option.none
    | Option.none => Option.none
  | Option.none => Option.none

/-- Inline identity resolution of `_format_conversations_for_parent` and
`_format_attachments_for_parent`: agents first; when the id is found in
agents, the contacts namespace is NOT consulted (the contacts search sits
in the `else` branch), and a missing nested email leaves the sentinel. -/
def formatterUserEmail (userData : Option UserData) (uidVal : PyVal) : String :=
  match userData with
  | Option.none => "NA"
  | some ud =>
    if pyFalsy uidVal then "NA"
    else
      let key := pyStr uidVal
      match dictGet ud.agents key with
      | some agent =>
        match agentContactEmail agent with
        | some e => e
        | Option.none => "NA"
      | Option.none =>
        match lookupContactEmail ud.contacts key with
        | some e => e
        | Option.none => "NA"

/-- `map_user_from_id` (config/mapper_functions.py): agents first, but with
fall-through — when the agent record has no nested email the contacts
namespace IS searched before giving up. -/
def mapUserFromId (userId : PyVal) (userData : Option UserData) : String :=
  match userData with
  | Option.none => "Unknown"
  | some ud =>
    if pyFalsy userId then "Unknown"
    else
      let key := pyStr userId
      let fromAgents :=
        match dictGet ud.agents key with
        | some agent => agentContactEmail agent
        | Option.none => Option.none
      match fromAgents with
      | some e => e
      | Option.none =>
        match lookupContactEmail ud.contacts key with
        | some e => e
        | Option.none => "Unknown"

/-!
Transform Registry (config/mapper_functions.py).  A registry entry is a
function from a value (and the optional Identity Directory context) to
either a result or a raised Python exception.  `modelRegistry` embeds the
subset of MAPPER_FUNCTIONS that the claims exercise; `apply_mapper_function`
itself is embedded parametrically in the registry, since its contract does
not depend on the registry contents.
-/

/-- A raised Python exception (only its kind matters to the embedding). -/
inductive PyErr where
  | typeError : PyErr
  | valueError : PyErr
deriving DecidableEq, Repr

/-- A registry entry: value and optional context in, result or exception out. -/
def MapperFn : Type := PyVal → Option UserData → Except PyErr PyVal

/-- A transform registry: name to callable, or None for unknown names. -/
def Registry : Type := String → Option MapperFn

/-- `map_priority`: dict lookup with default "Medium".  Python bools hash
as 0/1, so True hits the key 1; every other value falls to the default. -/
def mapPriorityFn : MapperFn := fun v _ =>
  .ok (.str
    (match v with
     | .int 1 => "Low"
     | .int 2 => "Medium"
     | .int 3 => "High"
     | .int 4 => "Urgent"
     | .bool true => "Low"
     | _ => "Medium"))

/-- `map_boolean`: bool first, then string spellings, then numbers,
else "false". -/
def mapBooleanFn : MapperFn := fun v _ =>
  .ok (.str
    (match v with
     | .bool b => if b then "true" else "false"
     | .str s =>
       let l := s.toLower
       if l = "true" ∨ l = "1" ∨ l = "yes" ∨ l = "on" then "true" else "false"
     | .int n => if n ≠ 0 then "true" else "false"
     | .none => "false"))

/-- `truncate_text` at the default max length 32000: falsy input yields "";
`len()` on a truthy non-string raises TypeError. -/
def truncateTextFn : MapperFn := fun v _ =>
  match v with
  | .str s =>
    .ok (.str (if s.length ≤ 32000 then s else (s.toList.take (32000 - 3)).asString ++ "..."))
  | .none => .ok (.str "")
  | .bool false => .ok (.str "")
  | .bool true => .error .typeError
  | .int n => if n = 0 then .ok (.str "") else .error .typeError

/-- `map_user_from_id` wrapped as a registry entry (it never raises). -/
def mapUserFromIdFn : MapperFn := fun v ctx => .ok (.str (mapUserFromId v ctx))

/-- The MAPPER_FUNCTIONS registry, restricted to the entries the claims
exercise (the remaining entries are irrelevant to every claim; all theorems
about `applyMapperFunction` are parametric in the registry). -/
def modelRegistry : Registry := fun nm =>
  if nm = "map_priority" then some mapPriorityFn
  else if nm = "map_boolean" then some mapBooleanFn
  else if nm = "truncate_text" then some truncateTextFn
  else if nm = "map_user_from_id" then some mapUserFromIdFn
  else Option.none

/-- `apply_mapper_function`: falsy name returns the value, unknown name
returns the value, the context is forwarded only to `map_user_from_id`
(and only when truthy), and any exception from the callable is caught,
returning the original value.  Totality of this definition is the
"never propagates an exception" guarantee. -/
def applyMapperFunction (reg : Registry) (functionName : Option String)
    (value : PyVal) (ctx : Option UserData) : PyVal :=
  match functionName with
  | Option.none => value
  | some nm =>
    if nm = "" then value
    else
      match reg nm with
      | Option.none => value
      | some f =>
        match (if nm = "map_user_from_id" ∧ ctx.isSome then f value ctx else f value Option.none) with
        | .ok v => v
        | .error _ => value

/-!
Mapping Table (the field_mapping.json configuration loaded by FieldMapper)
and the ticket-field mapping path of `map_ticket_fields`
(src/core/field_mapper.py).
-/

/-- One Mapping Table entry ({jira_field, mapper_function, system_field,
system_mapper_function}; absent JSON keys are `none`). -/
structure MappingEntry where
  jiraField : Option String
  mapperFunction : Option String
  systemField : Option String
  systemMapperFunction : Option String
deriving DecidableEq, Repr

/-- The Mapping Table: category name to (field name to entry). -/
abbrev FieldMapping : Type := List (String × List (String × MappingEntry))

/-- Load errors caught by `FieldMapper._load_field_mapping`. -/
inductive LoadError where
  | fileNotFoundError : LoadError
  | jsonDecodeError : LoadError
deriving DecidableEq, Repr

/-- `FieldMapper._load_field_mapping`: the file read and JSON parse are
modelled by the `Except` input; a FileNotFoundError or JSONDecodeError is
caught, a warning printed, and the empty table returned.  (Any other
exception would propagate, but the spec claims concern exactly these two.) -/
def loadFieldMapping (readResult : Except LoadError FieldMapping) : FieldMapping :=
  match readResult with
  | .ok m => m
  | .error .fileNotFoundError => []
  | .error .jsonDecodeError => []

/-- `FieldMapper.get_field_mapping(field_name, field_category)`. -/
def getFieldMapping (table : FieldMapping) (fieldName fieldCategory : String) :
    Option MappingEntry :=
  match dictGet table fieldCategory with
  | some cat => dictGet cat fieldName
  | Option.none => Option.none

/-- `FieldMapper.is_field_mapped`: the entry exists and its jira_field is
not None (an empty-string jira_field still counts as mapped here). -/
def isFieldMapped (table : FieldMapping) (fieldName fieldCategory : String) : Bool :=
  match getFieldMapping table fieldName fieldCategory with
  | some m => m.jiraField.isSome
  | Option.none => false

/-- `FieldMapper.get_unmapped_fields`: the fields without a usable mapping,
in input order. -/
def getUnmappedFields (table : FieldMapping) (data : List (String × PyVal))
    (fieldCategory : String) : List (String × PyVal) :=
  data.filter (fun fv => !(isFieldMapped table fv.1 fieldCategory))

/-- `FieldMapper.map_field_value_with_system_field`: resolve the entry,
require a truthy jira_field, apply the transform, and compute the secondary
system value when both system keys are truthy.  Result is the 4-tuple
(jira_field, mapped_value, system_field, system_field_value), with `none`
and `PyVal.none` standing for Python None. -/
def mapFieldValueWithSystemField (table : FieldMapping) (reg : Registry)
    (fieldName : String) (fieldValue : PyVal) (fieldCategory : String)
    (ctx : Option UserData) : Option String × PyVal × Option String × PyVal :=
  match getFieldMapping table fieldName fieldCategory with
  | Option.none => (Option.none, .none, Option.none, .none)
  | some mp =>
    match mp.jiraField with
    | Option.none => (Option.none, .none, Option.none, .none)
    | some j =>
      if j = "" then (Option.none, .none, Option.none, .none)
      else
        let mv := applyMapperFunction reg mp.mapperFunction fieldValue ctx
        let sv :=
          match mp.systemField, mp.systemMapperFunction with
          | some sf, some smf =>
            if sf ≠ "" ∧ smf ≠ "" then applyMapperFunction reg (some smf) fieldValue ctx
            else PyVal.none
          | _, _ => PyVal.none
        (some j, mv, mp.systemField, sv)

/-- The admission chain of `map_ticket_fields` (lines 267-280): a value is
written when it `is not None`; the following elif branches (False, 0, "",
"false", "0", any str) are each subsumed by the first test and kept here
only to mirror the source. -/
def ticketValueWritable (mv : PyVal) : Bool :=
  if mv ≠ PyVal.none then true
  else if mv = PyVal.bool false then true
  else if mv = PyVal.int 0 then true
  else if mv = PyVal.str "" then true
  else if mv = PyVal.str "false" then true
  else if mv = PyVal.str "0" then true
  else mv.isStr

/-- One iteration of the `for field_name, field_value in ticket_data.items()`
loop of `map_ticket_fields`: conditional custom-field write followed by
conditional system-field write. -/
def ticketLoopStep (table : FieldMapping) (reg : Registry) (ctx : Option UserData)
    (md : List (String × PyVal)) (fv : String × PyVal) : List (String × PyVal) :=
  let r := mapFieldValueWithSystemField table reg fv.1 fv.2 "ticket_fields" ctx
  let md1 :=
    match r.1 with
    | some j => if ticketValueWritable r.2.1 then dictInsert md j r.2.1 else md
    | Option.none => md
  match r.2.2.1 with
  | some sf => if sf ≠ "" ∧ r.2.2.2 ≠ PyVal.none then dictInsert md1 sf r.2.2.2 else md1
  | Option.none => md1

/-- The write list produced by one loop iteration (used to characterize the
loop): the custom write, then the system write, each when accepted. -/
def stepWrites (table : FieldMapping) (reg : Registry) (ctx : Option UserData)
    (fv : String × PyVal) : List (String × PyVal) :=
  let r := mapFieldValueWithSystemField table reg fv.1 fv.2 "ticket_fields" ctx
  (match r.1 with
   | some j => if ticketValueWritable r.2.1 then [(j, r.2.1)] else []
   | Option.none => []) ++
  (match r.2.2.1 with
   | some sf => if sf ≠ "" ∧ r.2.2.2 ≠ PyVal.none then [(sf, r.2.2.2)] else []
   | Option.none => [])

/-- The synthesized summary `"Freshdesk Ticket #<id>: No Subject Provided"`. -/
def noSubjectSummary (ticket : List (String × PyVal)) : String :=
  "Freshdesk Ticket #" ++ pyStr ((dictGet ticket "id").getD (.str "Unknown")) ++
    ": No Subject Provided"

/-- The 255-character cap with ellipsis (`summary[:252] + "..."`). -/
def capSummary (t : String) : String :=
  if 255 < t.length then (t.toList.take 252).asString ++ "..." else t

/-- The subject is absent, falsy, or whitespace-only (the condition
`not summary or summary.strip() == ''` on the default-"" get). -/
def subjectMissingOrBlank (ticket : List (String × PyVal)) : Bool :=
  match dictGet ticket "subject" with
  | Option.none => true
  | some (.str t) => pyStrip t == ""
  | some v => pyFalsy v

/-- The summary computation of `map_ticket_fields` (lines 249-258).
`none` models the AttributeError that `.strip()` raises on a truthy
non-string subject. -/
def summaryResult (ticket : List (String × PyVal)) : Option String :=
  let subjVal := (dictGet ticket "subject").getD (.str "")
  if pyFalsy subjVal then some (noSubjectSummary ticket)
  else
    match subjVal with
    | .str t =>
      let tr := pyStrip t
      if tr = "" then some (noSubjectSummary ticket) else some (capSummary tr)
    | _ => Option.none

/-- `FieldMapper.map_ticket_fields`: unmapped fields, the guaranteed summary
write, then the per-field loop.  `none` models a propagated exception from
the summary computation. -/
def mapTicketFields (table : FieldMapping) (reg : Registry)
    (ticket : List (String × PyVal)) (ctx : Option UserData) :
    Option (List (String × PyVal) × List (String × PyVal)) :=
  match summaryResult ticket with
  | Option.none => Option.none
  | some s =>
    let init := dictInsert [] "summary" (.str s)
    let mapped := ticket.foldl (ticketLoopStep table reg ctx) init
    some (mapped, getUnmappedFields table ticket "ticket_fields")

/-- The destination keys written by `map_ticket_fields` in write order
(summary first, then the per-field custom/system writes). -/
def ticketWriteKeys (table : FieldMapping) (reg : Registry) (ctx : Option UserData)
    (ticket : List (String × PyVal)) : List String :=
  "summary" :: (ticket.flatMap (stepWrites table reg ctx)).map Prod.fst

/-- `TicketConverter.get_mapped_fields_summary`: mapped and unmapped key
lists, total field count, and the coverage ratio
`len(mapped)/len(ticket) if ticket else 0` (exact division, modelled in ℚ). -/
def mappedFieldsSummary (table : FieldMapping) (reg : Registry)
    (ctx : Option UserData) (ticket : List (String × PyVal)) :
    Option (List String × List String × Nat × ℚ) :=
  (mapTicketFields table reg ticket ctx).map (fun mu =>
    (mu.1.map Prod.fst, mu.2.map Prod.fst, ticket.length,
      if ticket.isEmpty then 0 else (mu.1.length : ℚ) / (ticket.length : ℚ)))

/-!
Record Formatter for attachments (`_format_attachments_for_parent`) and the
attachment union built by `TicketConverter.convert_to_jira_issue` line 113.
-/

/-- An attachment record (a Python dict). -/
abbrev AttachmentDict : Type := List (String × PyVal)

/-- The fixed attachment header row, pipe-joined. -/
def attachmentHeaderLine : String :=
  String.intercalate "|"
    ["created_at", "updated_at", "attachment_id", "file name", "size",
     "user_id", "conversation_id"]

/-- One pipe-joined value line of `_format_attachments_for_parent`,
including the synthesized `"<id>_<name>"` display name and the resolved
actor identity. -/
def renderAttachmentLine (userData : Option UserData) (att : AttachmentDict) : String :=
  let userEmail := formatterUserEmail userData ((dictGet att "user_id").getD PyVal.none)
  let attachmentId := (dictGet att "id").getD (.str "N/A")
  let originalName := (dictGet att "name").getD (.str "N/A")
  let newName := pyStr attachmentId ++ "_" ++ pyStr originalName
  String.intercalate "|"
    [pyStr ((dictGet att "created_at").getD (.str "N/A")),
     pyStr ((dictGet att "updated_at").getD (.str "N/A")),
     pyStr attachmentId, newName,
     pyStr ((dictGet att "size").getD (.str "N/A")),
     userEmail,
     pyStr ((dictGet att "conversation_id").getD (.str "N/A"))]

/-- `FieldMapper._format_attachments_for_parent`: title line, header line,
then one value line per record in input order. -/
def formatAttachmentsForParent (data : List AttachmentDict)
    (userData : Option UserData) : String :=
  if data = [] then ""
  else
    String.intercalate "\n"
      ("**— Attachment Details —**" :: attachmentHeaderLine ::
        data.map (renderAttachmentLine userData))

/-- `TicketConverter.convert_to_jira_issue` line 113:
`ticket_attachments + conversation_attachments if ticket_attachments and
conversation_attachments else (ticket_attachments or conversation_attachments or [])`. -/
def allAttachmentsUnion (ta ca : List AttachmentDict) : List AttachmentDict :=
  if ta ≠ [] ∧ ca ≠ [] then ta ++ ca
  else if ta ≠ [] then ta
  else if ca ≠ [] then ca
  else []

/-!
Lemmas about the overflow splitter and pool.
-/

lemma pyTake_append_pyDrop (l : List Char) (i : Int) : pyTake l i ++ pyDrop l i = l :=
  List.take_append_drop _ _

lemma stripChunksFrom_splitConversationAux (maxLen : Int) :
    ∀ (fuel i : Nat) (rem : List Char),
      ∃ t, stripChunksFrom i (splitConversationAux maxLen fuel i rem) ++ t = rem := by
  intro fuel
  induction fuel with
  | zero => intro i rem; exact ⟨rem, rfl⟩
  | succ fuel ih =>
    intro i rem
    by_cases hrem : rem = []
    · subst hrem
      exact ⟨[], by simp [splitConversationAux, stripChunksFrom]⟩
    · by_cases hi : i = 0
      · subst hi
        by_cases hfit : (rem.length : Int) ≤ maxLen
        · refine ⟨[], ?_⟩
          simp [splitConversationAux, hrem, hfit, stripChunksFrom]
        · obtain ⟨t, ht⟩ :=
            ih 1 (pyDrop rem (findConversationBreakPoint rem maxLen))
          refine ⟨t, ?_⟩
          simp only [splitConversationAux, hrem, hfit, if_neg, if_pos, if_true,
            reduceIte, stripChunksFrom]
          rw [List.append_assoc, ht]
          exact pyTake_append_pyDrop _ _
      · by_cases hfit :
          (rem.length : Int) ≤ maxLen - ((convContinuationHeader i).length : Int)
        · refine ⟨[], ?_⟩
          simp [splitConversationAux, hrem, hi, hfit, stripChunksFrom,
            List.drop_left]
        · obtain ⟨t, ht⟩ :=
            ih (i + 1) (pyDrop rem (findConversationBreakPoint rem
              (maxLen - ((convContinuationHeader i).length : Int))))
          refine ⟨t, ?_⟩
          simp only [splitConversationAux, hrem, hi, hfit, if_neg, if_false,
            reduceIte, stripChunksFrom, List.drop_left]
          rw [List.append_assoc, ht]
          exact pyTake_append_pyDrop _ _

lemma splitConversationAux_length (maxLen : Int) :
    ∀ (fuel i : Nat) (rem : List Char),
      (splitConversationAux maxLen fuel i rem).length ≤ fuel := by
  intro fuel
  induction fuel with
  | zero => intro i rem; simp [splitConversationAux]
  | succ fuel ih =>
    intro i rem
    by_cases hrem : rem = []
    · simp [splitConversationAux, hrem]
    · by_cases hi : i = 0
      · by_cases hfit : (rem.length : Int) ≤ maxLen
        · simp [splitConversationAux, hrem, hi, hfit]
        · simp only [splitConversationAux, hrem, hi, hfit, if_true, if_false,
            ite_false, ite_true, List.length_cons]
          exact Nat.succ_le_succ (ih _ _)
      · by_cases hfit :
          (rem.length : Int) ≤ maxLen - ((convContinuationHeader i).length : Int)
        · simp [splitConversationAux, hrem, hi, hfit]
        · simp only [splitConversationAux, hrem, hi, hfit, if_true, if_false,
            ite_false, ite_true, List.length_cons]
          exact Nat.succ_le_succ (ih _ _)

lemma splitConversationData_length (data : List Char) (maxLen : Int) (n : Nat) :
    (splitConversationData data maxLen n).length ≤ 1 + n := by
  unfold splitConversationData
  split
  · simp
  · exact splitConversationAux_length maxLen (1 + n) 0 data

lemma splitAttachmentAux_length (maxLen : Int) :
    ∀ (fuel i : Nat) (rem : List Char),
      (splitAttachmentAux maxLen fuel i rem).length ≤ fuel := by
  intro fuel
  induction fuel with
  | zero => intro i rem; simp [splitAttachmentAux]
  | succ fuel ih =>
    intro i rem
    by_cases hrem : rem = []
    · simp [splitAttachmentAux, hrem]
    · by_cases hi : i = 0
      · by_cases hfit : (rem.length : Int) ≤ maxLen
        · simp [splitAttachmentAux, hrem, hi, hfit]
        · simp only [splitAttachmentAux, hrem, hi, hfit, if_true, if_false,
            ite_false, ite_true, List.length_cons]
          exact Nat.succ_le_succ (ih _ _)
      · by_cases hfit :
          (rem.length : Int) ≤ maxLen - ((attContinuationHeader i).length : Int)
        · simp [splitAttachmentAux, hrem, hi, hfit]
        · simp only [splitAttachmentAux, hrem, hi, hfit, if_true, if_false,
            ite_false, ite_true, List.length_cons]
          exact Nat.succ_le_succ (ih _ _)

lemma splitAttachmentData_length (data : List Char) (maxLen : Int) (n : Nat) :
    (splitAttachmentData data maxLen n).length ≤ 1 + n := by
  unfold splitAttachmentData
  split
  · simp
  · exact splitAttachmentAux_length maxLen (1 + n) 0 data

/-- The shared-pool branch of `_handle_conversation_overflow` is
unreachable: the splitter never produces more chunks than the dedicated
budget, so the handler output is the main write plus the dedicated writes
and the pool state is returned unchanged. -/
lemma handleConversationOverflow_eq (data : List Char) (of : List String)
    (maxLen : Int) (jf : String) (s : MapperState) :
    handleConversationOverflow data of maxLen jf s =
      ((jf, (splitConversationData data maxLen of.length).headD []) ::
        assignDedicated of ((splitConversationData data maxLen of.length).drop 1),
       s) := by
  have h := splitConversationData_length data maxLen of.length
  have h2 : ¬ (1 + of.length < (splitConversationData data maxLen of.length).length) := by
    omega
  unfold handleConversationOverflow
  simp [h2]

lemma handleAttachmentOverflow_eq (data : List Char) (of : List String)
    (maxLen : Int) (jf : String) (s : MapperState) :
    handleAttachmentOverflow data of maxLen jf s =
      ((jf, (splitAttachmentData data maxLen of.length).headD []) ::
        assignDedicated of ((splitAttachmentData data maxLen of.length).drop 1),
       s) := by
  have h := splitAttachmentData_length data maxLen of.length
  have h2 : ¬ (1 + of.length < (splitAttachmentData data maxLen of.length).length) := by
    omega
  unfold handleAttachmentOverflow
  simp [h2]

lemma assignDedicated_snd_mem :
    ∀ (fs : List String) (cs : List (List Char)) (p : String × List Char),
      p ∈ assignDedicated fs cs → p.2 ∈ cs := by
  intro fs
  induction fs with
  | nil => intro cs p hp; simp [assignDedicated] at hp
  | cons f fs ih =>
    intro cs p hp
    cases cs with
    | nil => simp [assignDedicated] at hp
    | cons c cs =>
      simp only [assignDedicated, List.mem_cons] at hp
      rcases hp with h | h
      · subst h; exact List.mem_cons_self _ _
      · exact List.mem_cons_of_mem _ (ih cs p h)

/-- Closed form of the pool loop: chunks are zipped, in order, with the pool
fields from the cursor on, and the cursor advances by the number of
assignments (clamped at the pool size). -/
lemma assignRemainingChunks_eq :
    ∀ (chunks : List (List Char)) (s : MapperState),
      s.overflowTracker ≤ s.additionalInfoFields.length →
      (∀ f ∈ s.additionalInfoFields, f ≠ "") →
      assignRemainingChunks chunks s =
        (List.zip (s.additionalInfoFields.drop s.overflowTracker) chunks,
         ⟨min (s.overflowTracker + chunks.length) s.additionalInfoFields.length,
          s.additionalInfoFields⟩) := by
  intro chunks
  induction chunks with
  | nil =>
    intro s hle hne
    obtain ⟨t, pool⟩ := s
    simp only at hle
    simp [assignRemainingChunks, Nat.min_eq_left hle]
  | cons c cs ih =>
    intro s hle hne
    obtain ⟨t, pool⟩ := s
    simp only at hle hne
    by_cases h : t < pool.length
    · have hget : getNextAdditionalInfoField ⟨t, pool⟩ =
          (some (pool.get ⟨t, h⟩), ⟨t + 1, pool⟩) := by
        simp [getNextAdditionalInfoField, h]
      have hfne : pool.get ⟨t, h⟩ ≠ "" := hne _ (List.get_mem pool t h)
      have hrec := ih ⟨t + 1, pool⟩ (by show t + 1 ≤ pool.length; omega) hne
      have hzip : List.zip (pool.drop t) (c :: cs) =
          (pool.get ⟨t, h⟩, c) :: List.zip (pool.drop (t + 1)) cs := by
        rw [List.drop_eq_getElem_cons h, List.zip_cons_cons]
        simp [List.get_eq_getElem]
      have hmin : t + (c :: cs).length = t + 1 + cs.length := by
        simp only [List.length_cons]; omega
      simp only [assignRemainingChunks, hget, hfne, ne_eq, not_false_iff,
        if_true, ite_true, hrec, hzip, hmin]
    · have ht : t = pool.length := by omega
      have hget : getNextAdditionalInfoField ⟨t, pool⟩ =
          (Option.none, ⟨t, pool⟩) := by
        simp [getNextAdditionalInfoField, h]
      have hmin : min (t + (c :: cs).length) pool.length = t := by
        subst ht; simp only [List.length_cons]; omega
      have hdrop : pool.drop t = [] := by subst ht; exact List.drop_length pool
      simp only [assignRemainingChunks, hget, hmin, hdrop, List.zip_nil_left]

/-- Keys of a zip are a take of the first list. -/
lemma zip_map_fst_take :
    ∀ (l1 : List String) (l2 : List (List Char)),
      (List.zip l1 l2).map Prod.fst = l1.take l2.length := by
  intro l1
  induction l1 with
  | nil => intro l2; simp
  | cons a l1 ih =>
    intro l2
    cases l2 with
    | nil => simp
    | cons b l2 => simp [List.zip_cons_cons, ih]

/-- Two successive pool-loop runs (regardless of category) consume disjoint
pool fields: the cursor makes pool consumption global, not per category. -/
lemma assignRemainingChunks_disjoint (ch1 ch2 : List (List Char)) (s : MapperState)
    (hle : s.overflowTracker ≤ s.additionalInfoFields.length)
    (hne : ∀ f ∈ s.additionalInfoFields, f ≠ "")
    (hnd : s.additionalInfoFields.Nodup) :
    ((assignRemainingChunks ch1 s).1.map Prod.fst).Disjoint
      ((assignRemainingChunks ch2 (assignRemainingChunks ch1 s).2).1.map Prod.fst) := by
  obtain ⟨t, pool⟩ := s
  simp only at hle hne hnd
  rw [assignRemainingChunks_eq ch1 ⟨t, pool⟩ hle hne]
  have hle' : min (t + ch1.length) pool.length ≤ pool.length := min_le_right _ _
  rw [assignRemainingChunks_eq ch2 ⟨min (t + ch1.length) pool.length, pool⟩ hle' hne]
  simp only [zip_map_fst_take]
  intro a ha1 ha2
  have ha2' : a ∈ pool.drop (min (t + ch1.length) pool.length) :=
    List.take_subset _ _ ha2
  by_cases hcase : t + ch1.length ≤ pool.length
  · have ht' : min (t + ch1.length) pool.length = t + ch1.length :=
      min_eq_left hcase
    have hdd : pool.drop (min (t + ch1.length) pool.length) =
        (pool.drop t).drop ch1.length := by
      rw [ht', List.drop_drop]
    have hnd' : (pool.drop t).Nodup :=
      List.Nodup.sublist (List.drop_sublist t pool) hnd
    exact List.disjoint_take_drop hnd' (le_refl ch1.length) ha1 (hdd ▸ ha2')
  · have ht' : min (t + ch1.length) pool.length = pool.length :=
      min_eq_right (by omega)
    rw [ht', List.drop_length] at ha2'
    simp at ha2'

/-!
Claim theorems: overflow round-trip (C1), shared pool (C2),
truncation marker (C4).
-/

/-- Claim C1 counterexample: the round-trip fails for a blob that needs more
chunks than the splitter's budget.  For the blob "aaaaa" with max-length 2
and no overflow fields, the splitter emits a single 2-character chunk and
drops the remaining 3 characters, so the stripped concatenation does not
reproduce the blob. -/
theorem overflow_roundtrip_counterexample :
    stripChunks (splitConversationData ("aaaaa".data) 2 0) ≠ "aaaaa".data := by
  decide

/-- Claim C1 (amended): concatenating the splitter's chunks with the
inserted continuation headers stripped always reproduces a byte-for-byte
prefix of the original blob, and reproduces it exactly whenever the blob
fits in one field; when the chunk budget (1 + number of overflow fields)
runs out, the tail of the blob is dropped. -/
theorem overflow_roundtrip_amended (data : List Char) (maxLen : Int) (n : Nat) :
    (∃ t, stripChunks (splitConversationData data maxLen n) ++ t = data) ∧
    ((data.length : Int) ≤ maxLen →
      stripChunks (splitConversationData data maxLen n) = data) := by
  constructor
  · unfold splitConversationData
    split
    · exact ⟨[], by simp [stripChunks, stripChunksFrom]⟩
    · exact stripChunksFrom_splitConversationAux maxLen (1 + n) 0 data
  · intro h
    simp [splitConversationData, h, stripChunks, stripChunksFrom]

/-- Witness for the amended C1 theorem at a concrete fitting blob. -/
theorem overflow_roundtrip_amended_witness :
    stripChunks (splitConversationData ("ab".data) 5 0) = "ab".data :=
  (overflow_roundtrip_amended ("ab".data) 5 0).2 (by decide)

set_option maxRecDepth 40000 in
/-- Claim C2 counterexample: a 300-character blob with max-length 100, one
dedicated overflow field and a fresh three-field shared pool needs more than
the 2-chunk dedicated capacity, yet no pool field is assigned and the
cursor does not move: the splitter capped the chunks at the dedicated
budget and the excess content was dropped instead of flowing to the pool. -/
theorem shared_pool_counterexample :
    2 * 100 < (List.replicate 300 'a').length ∧
    (handleConversationOverflow (List.replicate 300 'a') ["d1"] 100
        "FD_conversation" ⟨0, ["p1", "p2", "p3"]⟩).1.map Prod.fst =
      ["FD_conversation", "d1"] ∧
    (handleConversationOverflow (List.replicate 300 'a') ["d1"] 100
        "FD_conversation" ⟨0, ["p1", "p2", "p3"]⟩).2 =
      ⟨0, ["p1", "p2", "p3"]⟩ ∧
    stripChunks ((handleConversationOverflow (List.replicate 300 'a') ["d1"] 100
        "FD_conversation" ⟨0, ["p1", "p2", "p3"]⟩).1.map Prod.snd) ≠
      List.replicate 300 'a' := by
  decide

/-- Claim C2 (amended): the pool loop itself does pull fields one at a time
via the cursor in pool order, and two successive runs (conversation then
attachment, or any categories) consume disjoint pool fields — at most once
globally; but the branch is unreachable from the conversation/attachment
overflow handlers, whose output is exactly the main write plus the
dedicated writes with the pool state returned unchanged, because the
splitter caps the chunk list at the dedicated budget. -/
theorem shared_pool_amended :
    (∀ (data : List Char) (of : List String) (maxLen : Int) (jf : String)
        (s : MapperState),
      handleConversationOverflow data of maxLen jf s =
        ((jf, (splitConversationData data maxLen of.length).headD []) ::
          assignDedicated of ((splitConversationData data maxLen of.length).drop 1),
         s)) ∧
    (∀ (data : List Char) (of : List String) (maxLen : Int) (jf : String)
        (s : MapperState),
      handleAttachmentOverflow data of maxLen jf s =
        ((jf, (splitAttachmentData data maxLen of.length).headD []) ::
          assignDedicated of ((splitAttachmentData data maxLen of.length).drop 1),
         s)) ∧
    (∀ (ch1 ch2 : List (List Char)) (s : MapperState),
      s.overflowTracker ≤ s.additionalInfoFields.length →
      (∀ f ∈ s.additionalInfoFields, f ≠ "") →
      ((assignRemainingChunks ch1 s).1 =
        List.zip (s.additionalInfoFields.drop s.overflowTracker) ch1) ∧
      (s.additionalInfoFields.Nodup →
        ((assignRemainingChunks ch1 s).1.map Prod.fst).Disjoint
          ((assignRemainingChunks ch2 (assignRemainingChunks ch1 s).2).1.map
            Prod.fst))) := by
  refine ⟨handleConversationOverflow_eq, handleAttachmentOverflow_eq, ?_⟩
  intro ch1 ch2 s hle hne
  refine ⟨?_, fun hnd => assignRemainingChunks_disjoint ch1 ch2 s hle hne hnd⟩
  rw [assignRemainingChunks_eq ch1 s hle hne]

/-- Witness for the amended C2 theorem: a concrete two-run pool consumption. -/
theorem shared_pool_amended_witness :
    ((assignRemainingChunks [['a']] ⟨0, ["p1", "p2"]⟩).1 =
      List.zip (((⟨0, ["p1", "p2"]⟩ : MapperState)).additionalInfoFields.drop 0)
        [['a']]) ∧
    ((assignRemainingChunks [['a']] ⟨0, ["p1", "p2"]⟩).1.map Prod.fst).Disjoint
      ((assignRemainingChunks [['b']]
        (assignRemainingChunks [['a']] ⟨0, ["p1", "p2"]⟩).2).1.map Prod.fst) := by
  have h := shared_pool_amended.2.2 [['a']] [['b']] ⟨0, ["p1", "p2"]⟩
    (by decide) (by decide)
  exact ⟨h.1, h.2 (by decide)⟩

/-- Claim C4 counterexample: with a 30-character blob, max-length 10, no
dedicated overflow fields and three pool fields available, 20 characters of
content are dropped while the pool is untouched, and no "[TRUNCATED]"
marker is appended to the (single) populated field. -/
theorem truncation_marker_counterexample :
    (handleConversationOverflow (List.replicate 30 'a') [] 10 "FD_conversation"
        ⟨0, ["p1", "p2", "p3"]⟩).1 =
      [("FD_conversation", List.replicate 10 'a')] ∧
    (handleConversationOverflow (List.replicate 30 'a') [] 10 "FD_conversation"
        ⟨0, ["p1", "p2", "p3"]⟩).2 = ⟨0, ["p1", "p2", "p3"]⟩ ∧
    ("[TRUNCATED]".data).isSuffixOf (List.replicate 10 'a') = false ∧
    stripChunks ((handleConversationOverflow (List.replicate 30 'a') [] 10
        "FD_conversation" ⟨0, ["p1", "p2", "p3"]⟩).1.map Prod.snd) ≠
      List.replicate 30 'a' := by
  decide

/-- Claim C4 (amended): no truncation marker is ever produced by the
conversation/attachment overflow handlers — every populated field holds
exactly one unmodified chunk of the splitter output (or the empty default),
the pool state is never touched, and content beyond the primary and
dedicated fields is dropped silently by the splitter even when shared-pool
capacity remains. -/
theorem truncation_marker_amended :
    (∀ (data : List Char) (of : List String) (maxLen : Int) (jf : String)
        (s : MapperState),
      (handleConversationOverflow data of maxLen jf s).2 = s ∧
      ∀ p ∈ (handleConversationOverflow data of maxLen jf s).1,
        p.2 ∈ splitConversationData data maxLen of.length ∨ p.2 = []) ∧
    (∀ (data : List Char) (of : List String) (maxLen : Int) (jf : String)
        (s : MapperState),
      (handleAttachmentOverflow data of maxLen jf s).2 = s ∧
      ∀ p ∈ (handleAttachmentOverflow data of maxLen jf s).1,
        p.2 ∈ splitAttachmentData data maxLen of.length ∨ p.2 = []) := by
  constructor
  · intro data of maxLen jf s
    rw [handleConversationOverflow_eq]
    refine ⟨rfl, ?_⟩
    intro p hp
    rcases List.mem_cons.mp hp with h | h
    · subst h
      rcases hch : splitConversationData data maxLen of.length with _ | ⟨c, cs⟩
      · exact Or.inr rfl
      · exact Or.inl (List.mem_cons_self _ _)
    · exact Or.inl (List.drop_subset 1 _ (assignDedicated_snd_mem of _ p h))
  · intro data of maxLen jf s
    rw [handleAttachmentOverflow_eq]
    refine ⟨rfl, ?_⟩
    intro p hp
    rcases List.mem_cons.mp hp with h | h
    · subst h
      rcases hch : splitAttachmentData data maxLen of.length with _ | ⟨c, cs⟩
      · exact Or.inr rfl
      · exact Or.inl (List.mem_cons_self _ _)
    · exact Or.inl (List.drop_subset 1 _ (assignDedicated_snd_mem of _ p h))

/-- Witness for the amended C4 theorem at a concrete overflowing input. -/
theorem truncation_marker_amended_witness :
    (handleConversationOverflow ("aaa".data) [] 1 "f" ⟨0, []⟩).2 = ⟨0, []⟩ ∧
    (("f", "a".data).2 ∈ splitConversationData ("aaa".data) 1 0 ∨
      ("f", "a".data).2 = []) := by
  refine ⟨(truncation_marker_amended.1 ("aaa".data) [] 1 "f" ⟨0, []⟩).1, ?_⟩
  exact (truncation_marker_amended.1 ("aaa".data) [] 1 "f" ⟨0, []⟩).2
    ("f", "a".data) (by decide)



/-!
Dict lemmas (lookup through insertion-ordered writes) and the
characterization of the `map_ticket_fields` loop as a write sequence.
-/

lemma dictGet_dictInsert_self {α : Type} :
    ∀ (d : List (String × α)) (k : String) (v : α),
      dictGet (dictInsert d k v) k = some v := by
  intro d
  induction d with
  | nil => intro k v; simp [dictInsert, dictGet]
  | cons p r ih =>
    obtain ⟨pk, pv⟩ := p
    intro k v
    by_cases hp : pk = k
    · simp [dictInsert, hp, dictGet]
    · simp only [dictInsert, if_neg hp, dictGet]
      exact ih k v

lemma dictGet_dictInsert_ne {α : Type} :
    ∀ (d : List (String × α)) (k k' : String) (v : α), k' ≠ k →
      dictGet (dictInsert d k v) k' = dictGet d k' := by
  intro d
  induction d with
  | nil =>
    intro k k' v hk
    simp only [dictInsert, dictGet]
    rw [if_neg (fun he => hk he.symm)]
  | cons p r ih =>
    obtain ⟨pk, pv⟩ := p
    intro k k' v hk
    by_cases hp : pk = k
    · subst hp
      simp only [dictInsert, if_pos rfl, dictGet]
      rw [if_neg (fun he => hk he.symm), if_neg (fun he => hk he.symm)]
    · simp only [dictInsert, if_neg hp, dictGet]
      split
      · rfl
      · exact ih k k' v hk

lemma dictGet_buildDictFrom_of_not_mem {α : Type} :
    ∀ (ws : List (String × α)) (d : List (String × α)) (k : String),
      (∀ k' ∈ ws.map Prod.fst, k' ≠ k) →
      dictGet (buildDictFrom d ws) k = dictGet d k := by
  intro ws
  induction ws with
  | nil => intro d k _; rfl
  | cons w ws ih =>
    intro d k h
    have hw : w.1 ≠ k := h w.1 (by simp)
    have hrest : ∀ k' ∈ ws.map Prod.fst, k' ≠ k := by
      intro k' hk'; exact h k' (by simp [hk'])
    show dictGet (buildDictFrom (dictInsert d w.1 w.2) ws) k = dictGet d k
    rw [ih (dictInsert d w.1 w.2) k hrest,
      dictGet_dictInsert_ne d w.1 k w.2 (fun he => hw he.symm)]

lemma dictGet_buildDictFrom_of_mem {α : Type} :
    ∀ (ws : List (String × α)) (d : List (String × α)) (k : String) (v : α),
      (k, v) ∈ ws → (ws.map Prod.fst).Nodup →
      dictGet (buildDictFrom d ws) k = some v := by
  intro ws
  induction ws with
  | nil => intro d k v h _; simp at h
  | cons w ws ih =>
    intro d k v hmem hnd
    rcases List.mem_cons.mp hmem with h | h
    · subst h
      have hnot : ∀ k' ∈ ws.map Prod.fst, k' ≠ k := by
        intro k' hk' he
        subst he
        exact (List.nodup_cons.mp (by simpa using hnd)).1 hk'
      show dictGet (buildDictFrom (dictInsert d k v) ws) k = some v
      rw [dictGet_buildDictFrom_of_not_mem ws (dictInsert d k v) k hnot]
      exact dictGet_dictInsert_self d k v
    · exact ih (dictInsert d w.1 w.2) k v h (List.nodup_cons.mp (by simpa using hnd)).2

lemma dictInsert_length_le {α : Type} :
    ∀ (d : List (String × α)) (k : String) (v : α),
      (dictInsert d k v).length ≤ d.length + 1 := by
  intro d
  induction d with
  | nil => intro k v; simp [dictInsert]
  | cons p r ih =>
    obtain ⟨pk, pv⟩ := p
    intro k v
    by_cases hp : pk = k
    · simp [dictInsert, hp]
    · simp only [dictInsert, if_neg hp, List.length_cons]
      have := ih k v
      omega

lemma buildDictFrom_length_le {α : Type} :
    ∀ (ws : List (String × α)) (d : List (String × α)),
      (buildDictFrom d ws).length ≤ d.length + ws.length := by
  intro ws
  induction ws with
  | nil => intro d; simp [buildDictFrom]
  | cons w ws ih =>
    intro d
    have h1 : (buildDictFrom (dictInsert d w.1 w.2) ws).length ≤
        (dictInsert d w.1 w.2).length + ws.length := ih _
    have h2 := dictInsert_length_le d w.1 w.2
    show (buildDictFrom (dictInsert d w.1 w.2) ws).length ≤ d.length + (w :: ws).length
    simp only [List.length_cons]
    omega

lemma ticketValueWritable_of_ne (mv : PyVal) (h : mv ≠ PyVal.none) :
    ticketValueWritable mv = true := by
  cases mv with
  | none => exact absurd rfl h
  | bool b => simp [ticketValueWritable]
  | int n => simp [ticketValueWritable]
  | str s => simp [ticketValueWritable]

lemma ticketLoopStep_eq (table : FieldMapping) (reg : Registry)
    (ctx : Option UserData) (md : List (String × PyVal)) (fv : String × PyVal) :
    ticketLoopStep table reg ctx md fv =
      buildDictFrom md (stepWrites table reg ctx fv) := by
  unfold ticketLoopStep stepWrites
  rcases hr : mapFieldValueWithSystemField table reg fv.1 fv.2 "ticket_fields" ctx
    with ⟨jq, mv, sfq, sv⟩
  simp only [hr]
  cases jq with
  | none =>
    cases sfq with
    | none => rfl
    | some sf =>
      by_cases hc : sf ≠ "" ∧ sv ≠ PyVal.none
      · simp [hc, buildDictFrom]
      · simp [hc, buildDictFrom]
  | some j =>
    cases sfq with
    | none =>
      by_cases ha : ticketValueWritable mv = true
      · simp [ha, buildDictFrom]
      · simp [ha, buildDictFrom]
    | some sf =>
      by_cases ha : ticketValueWritable mv = true <;>
        by_cases hc : sf ≠ "" ∧ sv ≠ PyVal.none <;>
        simp [ha, hc, buildDictFrom]

lemma foldl_ticketLoopStep_eq (table : FieldMapping) (reg : Registry)
    (ctx : Option UserData) :
    ∀ (ticket : List (String × PyVal)) (d : List (String × PyVal)),
      ticket.foldl (ticketLoopStep table reg ctx) d =
        buildDictFrom d (ticket.flatMap (stepWrites table reg ctx)) := by
  intro ticket
  induction ticket with
  | nil => intro d; rfl
  | cons fv rest ih =>
    intro d
    show rest.foldl _ (ticketLoopStep table reg ctx d fv) = _
    rw [ih, ticketLoopStep_eq, List.flatMap_cons]
    unfold buildDictFrom
    rw [List.foldl_append]

lemma mapTicketFields_eq (table : FieldMapping) (reg : Registry)
    (ticket : List (String × PyVal)) (ctx : Option UserData)
    (m u : List (String × PyVal))
    (h : mapTicketFields table reg ticket ctx = some (m, u)) :
    ∃ s, summaryResult ticket = some s ∧
      m = buildDictFrom [("summary", PyVal.str s)]
        (ticket.flatMap (stepWrites table reg ctx)) ∧
      u = getUnmappedFields table ticket "ticket_fields" := by
  unfold mapTicketFields at h
  rcases hs : summaryResult ticket with _ | s
  · rw [hs] at h; cases h
  · rw [hs] at h
    simp only [Option.some.injEq, Prod.mk.injEq] at h
    refine ⟨s, rfl, ?_, h.2.symm⟩
    rw [← h.1, foldl_ticketLoopStep_eq]
    rfl

lemma mem_map_fst_ite_single {β : Type} (c : Prop) [Decidable c]
    (k a : String) (b : β)
    (h : k ∈ ((if c then [(a, b)] else []).map Prod.fst)) : k = a := by
  split at h
  · simp at h; exact h
  · simp at h

lemma stepWrites_key_source (table : FieldMapping) (reg : Registry)
    (ctx : Option UserData) (fv : String × PyVal) (k : String)
    (h : k ∈ (stepWrites table reg ctx fv).map Prod.fst) :
    ∃ e, getFieldMapping table fv.1 "ticket_fields" = some e ∧
      (e.jiraField = some k ∨ e.systemField = some k) := by
  unfold stepWrites mapFieldValueWithSystemField at h
  rcases hm : getFieldMapping table fv.1 "ticket_fields" with _ | e
  · rw [hm] at h; simp at h
  · rw [hm] at h
    dsimp only at h
    refine ⟨e, rfl, ?_⟩
    rcases hj : e.jiraField with _ | j
    · rw [hj] at h; dsimp only at h; simp at h
    · rw [hj] at h
      dsimp only at h
      by_cases hje : j = ""
      · rw [if_pos hje] at h; simp at h
      · rw [if_neg hje] at h
        dsimp only at h
        rw [List.map_append] at h
        rcases List.mem_append.mp h with h | h
        · left
          split at h
          · simp at h; rw [h]
          · simp at h
        · right
          rcases hsf : e.systemField with _ | sf
          · rw [hsf] at h; dsimp only at h; simp at h
          · rw [hsf] at h
            rcases hsm : e.systemMapperFunction with _ | smf <;>
              rw [hsm] at h <;> dsimp only at h <;> split at h <;> simp at h <;>
              first
                | rw [h]
                | rw [h.2]

lemma stepWrites_jira_mem (table : FieldMapping) (reg : Registry)
    (ctx : Option UserData) (f : String) (v : PyVal) (e : MappingEntry) (j : String)
    (he : getFieldMapping table f "ticket_fields" = some e)
    (hj : e.jiraField = some j) (hjne : j ≠ "")
    (hmv : applyMapperFunction reg e.mapperFunction v ctx ≠ PyVal.none) :
    (j, applyMapperFunction reg e.mapperFunction v ctx) ∈
      stepWrites table reg ctx (f, v) := by
  unfold stepWrites mapFieldValueWithSystemField
  dsimp only
  rw [he]
  dsimp only
  rw [hj]
  dsimp only
  rw [if_neg hjne]
  dsimp only
  rw [if_pos (ticketValueWritable_of_ne _ hmv)]
  exact List.mem_append_left _ (List.mem_cons_self _ _)

lemma stepWrites_length_le (table : FieldMapping) (reg : Registry)
    (ctx : Option UserData) (fv : String × PyVal) :
    (stepWrites table reg ctx fv).length ≤ 2 := by
  unfold stepWrites mapFieldValueWithSystemField
  rcases getFieldMapping table fv.1 "ticket_fields" with _ | e
  · simp
  · dsimp only
    rcases e.jiraField with _ | j
    · simp
    · dsimp only
      by_cases hje : j = ""
      · rw [if_pos hje]; simp
      · rw [if_neg hje]
        dsimp only
        rcases e.systemField with _ | sf <;>
          rcases e.systemMapperFunction with _ | smf <;>
          dsimp only <;> split <;> (try split) <;> (try split) <;> simp

lemma flatMap_stepWrites_length_le (table : FieldMapping) (reg : Registry)
    (ctx : Option UserData) :
    ∀ (ticket : List (String × PyVal)),
      (ticket.flatMap (stepWrites table reg ctx)).length ≤ 2 * ticket.length := by
  intro ticket
  induction ticket with
  | nil => simp
  | cons fv rest ih =>
    rw [List.flatMap_cons, List.length_append]
    have := stepWrites_length_le table reg ctx fv
    simp only [List.length_cons]
    omega

lemma stepWrites_empty_table (reg : Registry) (ctx : Option UserData)
    (fv : String × PyVal) : stepWrites ([] : FieldMapping) reg ctx fv = [] := rfl

lemma flatMap_stepWrites_empty (reg : Registry) (ctx : Option UserData) :
    ∀ (l : List (String × PyVal)),
      l.flatMap (stepWrites ([] : FieldMapping) reg ctx) = [] := by
  intro l
  induction l with
  | nil => rfl
  | cons fv rest ih => rw [List.flatMap_cons, stepWrites_empty_table, ih]; rfl

lemma noSubjectSummary_ne (ticket : List (String × PyVal)) :
    noSubjectSummary ticket ≠ "" := by
  intro h
  have hlen := congrArg String.length h
  rw [noSubjectSummary, String.length_append, String.length_append] at hlen
  have h1 : ("Freshdesk Ticket #" : String).length = 18 := rfl
  have h2 : (": No Subject Provided" : String).length = 21 := rfl
  have h0 : ("" : String).length = 0 := rfl
  rw [h1, h2, h0] at hlen
  omega

lemma capSummary_ne (t : String) (ht : t ≠ "") : capSummary t ≠ "" := by
  unfold capSummary
  split
  · intro h
    have hlen := congrArg String.length h
    rw [String.length_append] at hlen
    have h2 : ("..." : String).length = 3 := rfl
    have h0 : ("" : String).length = 0 := rfl
    rw [h2, h0] at hlen
    omega
  · exact ht

lemma capSummary_of_le (t : String) (hle : t.length ≤ 255) : capSummary t = t := by
  unfold capSummary
  rw [if_neg (by omega)]

lemma capSummary_of_gt (t : String) (hgt : 255 < t.length) :
    (capSummary t).length = 255 ∧ ∃ u, capSummary t = u ++ "..." := by
  unfold capSummary
  rw [if_pos hgt]
  refine ⟨?_, ⟨_, rfl⟩⟩
  rw [String.length_append]
  have h3 : ("..." : String).length = 3 := rfl
  have hl : ((t.toList.take 252).asString).length = (t.toList.take 252).length := rfl
  have ht : t.toList.length = t.length := rfl
  rw [h3, hl, List.length_take, ht]
  omega

lemma summaryResult_ne (ticket : List (String × PyVal)) (s : String)
    (h : summaryResult ticket = some s) : s ≠ "" := by
  unfold summaryResult at h
  dsimp only at h
  split at h
  · rw [Option.some.injEq] at h
    subst h
    exact noSubjectSummary_ne ticket
  · split at h
    · split at h
      · rw [Option.some.injEq] at h
        subst h
        exact noSubjectSummary_ne ticket
      · rw [Option.some.injEq] at h
        subst h
        exact capSummary_ne _ (by assumption)
    · cases h

lemma summaryResult_of_blank (ticket : List (String × PyVal))
    (h : subjectMissingOrBlank ticket = true) :
    summaryResult ticket = some (noSubjectSummary ticket) := by
  unfold subjectMissingOrBlank at h
  rcases hs : dictGet ticket "subject" with _ | v
  · have h1 : pyFalsy (PyVal.str "") = true := by decide
    simp [summaryResult, hs, h1]
  · rw [hs] at h
    cases v with
    | none => simp [summaryResult, hs, pyFalsy]
    | bool b =>
      cases b
      · simp [summaryResult, hs, pyFalsy]
      · simp [pyFalsy] at h
    | int n =>
      have hn : n = 0 := by simpa [pyFalsy] using h
      simp [summaryResult, hs, pyFalsy, hn]
    | str t =>
      have htr : pyStrip t = "" := by simpa using h
      by_cases ht : t = ""
      · simp [summaryResult, hs, pyFalsy, ht]
      · simp [summaryResult, hs, pyFalsy, ht, htr]

lemma summaryResult_of_str (ticket : List (String × PyVal)) (t : String)
    (hs : dictGet ticket "subject" = some (.str t)) (ht : pyStrip t ≠ "") :
    summaryResult ticket = some (capSummary (pyStrip t)) := by
  have htne : t ≠ "" := by
    intro he
    subst he
    exact ht rfl
  simp [summaryResult, hs, pyFalsy, htne, ht]

/-- Claim C5: the ticket-field mapping always yields a non-empty summary;
an absent, falsy, or whitespace-only subject yields the synthesized
`"Freshdesk Ticket #<id>: No Subject Provided"`; a non-blank subject yields
the trimmed subject, capped at exactly 255 characters with a trailing
ellipsis when the trimmed subject exceeds 255 characters.  The hypotheses
spec-model the Mapping Table invariant (no entry writes the `summary`
destination, which is reserved for the synthesized write). -/
theorem summary_guarantee (table : FieldMapping) (reg : Registry)
    (ticket : List (String × PyVal)) (ctx : Option UserData)
    (m u : List (String × PyVal))
    (hrun : mapTicketFields table reg ticket ctx = some (m, u))
    (hns : ∀ f e, getFieldMapping table f "ticket_fields" = some e →
      e.jiraField ≠ some "summary" ∧ e.systemField ≠ some "summary") :
    (subjectMissingOrBlank ticket = true →
      dictGet m "summary" = some (.str (noSubjectSummary ticket))) ∧
    (∀ t, dictGet ticket "subject" = some (.str t) → pyStrip t ≠ "" →
      dictGet m "summary" = some (.str (capSummary (pyStrip t))) ∧
      ((pyStrip t).length ≤ 255 → capSummary (pyStrip t) = pyStrip t) ∧
      (255 < (pyStrip t).length → (capSummary (pyStrip t)).length = 255 ∧
        ∃ pre, capSummary (pyStrip t) = pre ++ "...")) ∧
    (∃ s, dictGet m "summary" = some (.str s) ∧ s ≠ "") := by
  obtain ⟨s, hs, hm, _⟩ := mapTicketFields_eq table reg ticket ctx m u hrun
  have hkeys : ∀ k' ∈ (ticket.flatMap (stepWrites table reg ctx)).map Prod.fst,
      k' ≠ "summary" := by
    intro k' hk' he
    subst he
    rw [List.map_flatMap] at hk'
    obtain ⟨fv, hfv, hmem⟩ := List.mem_flatMap.mp hk'
    obtain ⟨e, hge, hor⟩ := stepWrites_key_source table reg ctx fv "summary" hmem
    rcases hor with h | h
    · exact (hns fv.1 e hge).1 h
    · exact (hns fv.1 e hge).2 h
  have hsum : dictGet m "summary" = some (.str s) := by
    rw [hm, dictGet_buildDictFrom_of_not_mem _ _ _ hkeys]
    simp [dictGet]
  refine ⟨?_, ?_, ⟨s, hsum, summaryResult_ne ticket s hs⟩⟩
  · intro hblank
    rw [summaryResult_of_blank ticket hblank] at hs
    rw [Option.some.injEq] at hs
    rw [hsum, hs]
  · intro t hsubj htr
    rw [summaryResult_of_str ticket t hsubj htr] at hs
    rw [Option.some.injEq] at hs
    refine ⟨by rw [hsum, hs], fun hle => capSummary_of_le _ hle,
      fun hgt => capSummary_of_gt _ hgt⟩

/-- Witness for C5 at the claim's own example: ticket id 42, no subject. -/
theorem summary_guarantee_witness :
    dictGet [("summary", PyVal.str "Freshdesk Ticket #42: No Subject Provided")]
      "summary" =
      some (PyVal.str "Freshdesk Ticket #42: No Subject Provided") := by
  have h := (summary_guarantee [] modelRegistry [("id", PyVal.int 42)] Option.none
    [("summary", PyVal.str "Freshdesk Ticket #42: No Subject Provided")]
    [("id", PyVal.int 42)] (by decide)
    (by intro f e he; simp [getFieldMapping, dictGet] at he)).1 (by decide)
  simpa using h

/-- Claim C6: in ticket-field mapping, any source field whose entry names a
(truthy) destination and whose transformed value is not None ends up in the
mapped output under that destination with exactly that value — False, 0,
"", "false", "0" included; only None suppresses the write.  The
no-duplicate-destination hypothesis is the Mapping Table invariant stated
by the spec (unique destination fields per record). -/
theorem value_admission (table : FieldMapping) (reg : Registry)
    (ticket : List (String × PyVal)) (ctx : Option UserData)
    (m u : List (String × PyVal)) (f : String) (v : PyVal) (e : MappingEntry)
    (j : String)
    (hrun : mapTicketFields table reg ticket ctx = some (m, u))
    (hmem : (f, v) ∈ ticket)
    (he : getFieldMapping table f "ticket_fields" = some e)
    (hj : e.jiraField = some j) (hjne : j ≠ "")
    (hnd : (ticketWriteKeys table reg ctx ticket).Nodup)
    (hmv : applyMapperFunction reg e.mapperFunction v ctx ≠ PyVal.none) :
    dictGet m j = some (applyMapperFunction reg e.mapperFunction v ctx) := by
  obtain ⟨s, _, hm, _⟩ := mapTicketFields_eq table reg ticket ctx m u hrun
  have hw : (j, applyMapperFunction reg e.mapperFunction v ctx) ∈
      ticket.flatMap (stepWrites table reg ctx) :=
    List.mem_flatMap.mpr
      ⟨(f, v), hmem, stepWrites_jira_mem table reg ctx f v e j he hj hjne hmv⟩
  have hbd : m = buildDictFrom ([] : List (String × PyVal))
      (("summary", PyVal.str s) :: ticket.flatMap (stepWrites table reg ctx)) := hm
  rw [hbd]
  apply dictGet_buildDictFrom_of_mem
  · exact List.mem_cons_of_mem _ hw
  · simpa [ticketWriteKeys] using hnd

/-- Witness for C6: a mapped `False` value is accepted and written. -/
theorem value_admission_witness :
    dictGet [("summary",
        PyVal.str "Freshdesk Ticket #Unknown: No Subject Provided"),
      ("j", PyVal.bool false)] "j" = some (PyVal.bool false) := by
  have h := value_admission
    [("ticket_fields",
      [("a", ⟨some "j", Option.none, Option.none, Option.none⟩)])]
    modelRegistry [("a", PyVal.bool false)] Option.none
    [("summary", PyVal.str "Freshdesk Ticket #Unknown: No Subject Provided"),
      ("j", PyVal.bool false)]
    [] "a" (PyVal.bool false)
    ⟨some "j", Option.none, Option.none, Option.none⟩ "j"
    (by decide) (by decide) (by decide) (by decide) (by decide) (by decide)
    (by decide)
  simpa using h

/-- Claim C3 counterexample: a missing or malformed mapping file does NOT
raise — the loader catches the exception and returns the empty table, and
ticket mapping then runs normally on that empty table. -/
theorem config_error_counterexample :
    loadFieldMapping (Except.error LoadError.fileNotFoundError) =
      ([] : FieldMapping) ∧
    loadFieldMapping (Except.error LoadError.jsonDecodeError) =
      ([] : FieldMapping) ∧
    (mapTicketFields (loadFieldMapping (Except.error LoadError.fileNotFoundError))
      modelRegistry [("id", PyVal.int 7)] Option.none).isSome = true := by
  decide

/-- Claim C3 (amended): when the mapping file is missing or malformed, the
loader catches the exception and returns the empty table; subsequent
mapping then uses that empty table: every field is unmapped and only the
synthesized summary is written. -/
theorem config_error_amended (e : LoadError) (reg : Registry)
    (ticket : List (String × PyVal)) (ctx : Option UserData)
    (m u : List (String × PyVal))
    (hrun : mapTicketFields (loadFieldMapping (Except.error e)) reg ticket ctx =
      some (m, u)) :
    loadFieldMapping (Except.error e) = [] ∧
    m.map Prod.fst = ["summary"] ∧ u = ticket := by
  have hload : loadFieldMapping (Except.error e) = [] := by cases e <;> rfl
  rw [hload] at hrun
  obtain ⟨s, _, hm, hu⟩ := mapTicketFields_eq [] reg ticket ctx m u hrun
  have hflat := flatMap_stepWrites_empty reg ctx ticket
  refine ⟨hload, ?_, ?_⟩
  · rw [hm, hflat]
    rfl
  · rw [hu]
    unfold getUnmappedFields
    have hall : ∀ fv ∈ ticket, !(isFieldMapped [] fv.1 "ticket_fields") = true := by
      intro fv _
      rfl
    exact List.filter_eq_self.mpr hall

/-- Witness for the amended C3 theorem at a concrete one-field ticket. -/
theorem config_error_amended_witness :
    loadFieldMapping (Except.error LoadError.jsonDecodeError) = [] ∧
    ([("summary", PyVal.str "Freshdesk Ticket #Unknown: No Subject Provided")].map
      Prod.fst = ["summary"]) ∧
    [("x", PyVal.int 1)] = [("x", PyVal.int 1)] :=
  config_error_amended LoadError.jsonDecodeError modelRegistry
    [("x", PyVal.int 1)] Option.none
    [("summary", PyVal.str "Freshdesk Ticket #Unknown: No Subject Provided")]
    [("x", PyVal.int 1)] (by decide)

/-- Claim C7 counterexample: a one-field ticket whose field is mapped gives
a coverage ratio of 2, outside [0,1] — the synthesized summary makes the
mapped-field count exceed the source-field count. -/
theorem coverage_ratio_counterexample :
    mappedFieldsSummary
      [("ticket_fields",
        [("a", ⟨some "j", Option.none, Option.none, Option.none⟩)])]
      modelRegistry Option.none [("a", PyVal.int 1)] =
      some (["summary", "j"], [], 1, 2) ∧
    ¬ ((2 : ℚ) ≤ 1) := by
  constructor
  · have hrun : mapTicketFields
        [("ticket_fields",
          [("a", ⟨some "j", Option.none, Option.none, Option.none⟩)])]
        modelRegistry [("a", PyVal.int 1)] Option.none =
        some ([("summary",
            PyVal.str "Freshdesk Ticket #Unknown: No Subject Provided"),
          ("j", PyVal.int 1)], []) := by decide
    unfold mappedFieldsSummary
    rw [hrun]
    simp only [Option.map_some']
    norm_num
  · norm_num

/-- Claim C7 (amended): the coverage ratio equals exactly
len(mapped)/len(ticket) (0 for an empty ticket) and is nonnegative, but it
is not bounded by 1: it only obeys the bound (1 + 2·n)/n, since the
synthesized summary plus up to two writes per source field (custom and
system destination) can exceed the source-field count. -/
theorem coverage_ratio_amended (table : FieldMapping) (reg : Registry)
    (ctx : Option UserData) (ticket : List (String × PyVal))
    (ms us : List String) (tot : Nat) (cov : ℚ)
    (h : mappedFieldsSummary table reg ctx ticket = some (ms, us, tot, cov)) :
    tot = ticket.length ∧ 0 ≤ cov ∧ (ticket = [] → cov = 0) ∧
    (ticket ≠ [] → cov = (ms.length : ℚ) / (tot : ℚ) ∧
      cov ≤ ((1 : ℚ) + 2 * (tot : ℚ)) / (tot : ℚ)) := by
  unfold mappedFieldsSummary at h
  rcases hrun : mapTicketFields table reg ticket ctx with _ | mu
  · rw [hrun] at h; cases h
  · rw [hrun] at h
    obtain ⟨m, u⟩ := mu
    simp only [Option.map_some', Option.some.injEq, Prod.mk.injEq] at h
    obtain ⟨hms, _, htot, hcov⟩ := h
    have hmlen : m.length ≤ 1 + 2 * ticket.length := by
      obtain ⟨s, _, hm, _⟩ := mapTicketFields_eq table reg ticket ctx m u hrun
      have h1 := buildDictFrom_length_le
        (ticket.flatMap (stepWrites table reg ctx)) [("summary", PyVal.str s)]
      have h2 := flatMap_stepWrites_length_le table reg ctx ticket
      rw [hm]
      simp only [List.length_singleton] at h1
      omega
    refine ⟨htot.symm, ?_, ?_, ?_⟩
    · rw [← hcov]
      split
      · exact le_refl 0
      · positivity
    · intro hempty
      rw [← hcov, if_pos (by simp [hempty])]
    · intro hne
      have hnemp : ticket.isEmpty = false := by
        rcases ticket with _ | _
        · exact absurd rfl hne
        · rfl
      have hpos : (0 : ℚ) < (ticket.length : ℚ) := by
        have : 0 < ticket.length := by
          rcases ticket with _ | _
          · exact absurd rfl hne
          · simp
        exact_mod_cast this
      constructor
      · rw [← hcov, if_neg (by simp [hnemp]), ← hms, ← htot, List.length_map]
      · rw [← hcov, if_neg (by simp [hnemp]), ← htot]
        rw [div_le_div_iff_of_pos_right hpos]
        have : (m.length : ℚ) ≤ (1 : ℚ) + 2 * (ticket.length : ℚ) := by
          exact_mod_cast hmlen
        exact this

/-- Witness for the amended C7 theorem at a concrete ticket. -/
theorem coverage_ratio_amended_witness :
    (1 = 1) ∧ ((2 : ℚ) = ((2 : Nat) : ℚ) / ((1 : Nat) : ℚ) ∧
      (2 : ℚ) ≤ ((1 : ℚ) + 2 * ((1 : Nat) : ℚ)) / ((1 : Nat) : ℚ)) := by
  have hrun : mapTicketFields
      [("ticket_fields",
        [("a", ⟨some "j", Option.none, Option.none, Option.none⟩)])]
      modelRegistry [("a", PyVal.int 1)] Option.none =
      some ([("summary",
          PyVal.str "Freshdesk Ticket #Unknown: No Subject Provided"),
        ("j", PyVal.int 1)], []) := by decide
  have hsum : mappedFieldsSummary
      [("ticket_fields",
        [("a", ⟨some "j", Option.none, Option.none, Option.none⟩)])]
      modelRegistry Option.none [("a", PyVal.int 1)] =
      some (["summary", "j"], [], 1, 2) := by
    unfold mappedFieldsSummary
    rw [hrun]
    simp only [Option.map_some']
    norm_num
  have h := coverage_ratio_amended
    [("ticket_fields",
      [("a", ⟨some "j", Option.none, Option.none, Option.none⟩)])]
    modelRegistry Option.none [("a", PyVal.int 1)]
    ["summary", "j"] [] 1 2 hsum
  refine ⟨rfl, ?_⟩
  have h2 := h.2.2.2 (by simp)
  constructor
  · simpa using h2.1
  · simpa using h2.2

/-- Claim C8: `apply_mapper_function` returns the value unchanged for an
absent, empty, or unknown transform name, and returns the original value
when the resolved callable raises; the definition is total (returns a
plain value, never an exception), which is the never-propagates guarantee.
The statement is parametric in the registry, as the wrapper's contract does
not depend on the registry contents. -/
theorem transform_apply_safety (reg : Registry) (nm : String) (v : PyVal)
    (ctx : Option UserData) :
    applyMapperFunction reg Option.none v ctx = v ∧
    applyMapperFunction reg (some "") v ctx = v ∧
    (reg nm = Option.none → applyMapperFunction reg (some nm) v ctx = v) ∧
    (∀ f err, reg nm = some f → nm ≠ "" →
      (if nm = "map_user_from_id" ∧ ctx.isSome then f v ctx else f v Option.none) =
        Except.error err →
      applyMapperFunction reg (some nm) v ctx = v) := by
  refine ⟨rfl, by simp [applyMapperFunction], ?_, ?_⟩
  · intro h
    unfold applyMapperFunction
    dsimp only
    by_cases hnm : nm = ""
    · rw [if_pos hnm]
    · rw [if_neg hnm, h]
  · intro f err hf hnm herr
    unfold applyMapperFunction
    dsimp only
    rw [if_neg hnm, hf]
    dsimp only
    rw [herr]

/-- Witness for C8: `truncate_text` raises TypeError on the integer 5 and
the wrapper returns 5 unchanged; an unknown name passes 5 through. -/
theorem transform_apply_safety_witness :
    applyMapperFunction modelRegistry (some "truncate_text") (PyVal.int 5)
      Option.none = PyVal.int 5 ∧
    applyMapperFunction modelRegistry (some "no_such_function") (PyVal.int 5)
      Option.none = PyVal.int 5 := by
  constructor
  · exact (transform_apply_safety modelRegistry "truncate_text" (PyVal.int 5)
      Option.none).2.2.2 truncateTextFn PyErr.typeError rfl (by decide) rfl
  · exact (transform_apply_safety modelRegistry "no_such_function" (PyVal.int 5)
      Option.none).2.2.1 rfl

/-- Claim C9: the attachment union built by the Ticket Assembler is always
the ticket-direct attachments followed by the conversation attachments in
input order, and the attachment formatter renders one line per record in
exactly that order (after the fixed title and header lines). -/
theorem attachment_ordering (ta ca : List AttachmentDict) (ud : Option UserData) :
    allAttachmentsUnion ta ca = ta ++ ca ∧
    formatAttachmentsForParent (ta ++ ca) ud =
      (if ta ++ ca = [] then ""
       else String.intercalate "\n"
        ("**— Attachment Details —**" :: attachmentHeaderLine ::
          (ta.map (renderAttachmentLine ud) ++ ca.map (renderAttachmentLine ud)))) := by
  constructor
  · unfold allAttachmentsUnion
    rcases ta with _ | ⟨a, ta⟩ <;> rcases ca with _ | ⟨c, ca⟩ <;> simp
  · unfold formatAttachmentsForParent
    rw [List.map_append]

/-- Claim C10: when the actor id resolves to an agent record without a
nested contact email, the Record Formatter's inline resolution yields the
"NA" sentinel without consulting the contacts namespace, while the
standalone `map_user_from_id` transform falls through to contacts and
returns the contact email. -/
theorem identity_resolution_divergence (ud : UserData) (uid : PyVal)
    (a : Agent) (email : String)
    (htruthy : pyFalsy uid = false)
    (hagent : dictGet ud.agents (pyStr uid) = some a)
    (hnoemail : agentContactEmail a = Option.none)
    (hcontact : lookupContactEmail ud.contacts (pyStr uid) = some email) :
    formatterUserEmail (some ud) uid = "NA" ∧
    mapUserFromId uid (some ud) = email := by
  constructor
  · unfold formatterUserEmail
    dsimp only
    rw [if_neg (by simp [htruthy]), hagent]
    dsimp only
    rw [hnoemail]
  · unfold mapUserFromId
    dsimp only
    rw [if_neg (by simp [htruthy]), hagent]
    dsimp only
    rw [hnoemail]
    dsimp only
    rw [hcontact]

/-- Witness for C10: user id 7 is an agent without a contact email and also
a contact with email; the formatter renders "NA", the transform the email. -/
theorem identity_resolution_divergence_witness :
    formatterUserEmail
      (some ⟨[("7", ⟨Option.none⟩)], [("7", ⟨some "x@y.z"⟩)]⟩)
      (PyVal.int 7) = "NA" ∧
    mapUserFromId (PyVal.int 7)
      (some ⟨[("7", ⟨Option.none⟩)], [("7", ⟨some "x@y.z"⟩)]⟩) = "x@y.z" :=
  identity_resolution_divergence
    ⟨[("7", ⟨Option.none⟩)], [("7", ⟨some "x@y.z"⟩)]⟩
    (PyVal.int 7) ⟨Option.none⟩ "x@y.z"
    (by decide) (by decide) (by decide) (by decide)
